import Mathlib

/-!
Shallow embedding of the face-quality service core
(`face-quality-service/app.py`) and proofs about its specification.

Conventions of the embedding:
* pixel coordinates and scores are rationals (`ℚ`), idealizing Python floats;
* fallible Python code is `Except Unit _`: `.error ()` models an uncaught
  exception (`KeyError`, `ZeroDivisionError`, a failing cv2/dlib call, ...);
* external collaborators (cv2 conversions, the dlib detector and the landmark
  predictor) are oracle fields supplied to the functions that invoke them;
* `round` on `ℚ` stands for Python `round`; on the values reachable here
  (multiples of 1/5 of an integer) the two agree, since a tie at .5 never
  occurs; Python `int()` truncation toward zero is `pytrunc`.
-/

namespace FaceQuality

/-- An axis-aligned bounding box, `{x_min, y_min, x_max, y_max}`. -/
structure Box where
  x_min : ℚ
  y_min : ℚ
  x_max : ℚ
  y_max : ℚ
deriving DecidableEq

/-- The data-model invariant on boxes: positive extent in both axes. -/
def Box.wellFormed (b : Box) : Prop :=
  b.x_min < b.x_max ∧ b.y_min < b.y_max

/-- The (signed) area of a box. -/
def Box.area (b : Box) : ℚ :=
  (b.x_max - b.x_min) * (b.y_max - b.y_min)

/-- Embedding of `calculate_iou` (app.py:65–80).  The final `overlap_area / total_area`
is an unguarded Python division: when `total_area = 0` the call raises
`ZeroDivisionError`, embedded as `.error ()`. -/
def calculate_iou (box1 box2 : Box) : Except Unit ℚ :=
  let x_left := max box1.x_min box2.x_min
  let y_top := max box1.y_min box2.y_min
  let x_right := min box1.x_max box2.x_max
  let y_bottom := min box1.y_max box2.y_max
  if x_right < x_left ∨ y_bottom < y_top then
    .ok 0
  else
    let overlap_area := (x_right - x_left) * (y_bottom - y_top)
    let area_bbox1 := (box1.x_max - box1.x_min) * (box1.y_max - box1.y_min)
    let area_bbox2 := (box2.x_max - box2.x_min) * (box2.y_max - box2.y_min)
    let total_area := area_bbox1 + area_bbox2 - overlap_area
    if total_area = 0 then .error () else .ok (overlap_area / total_area)

/-- The IoU value as a total function (Lean's `ℚ` division, `0/0 = 0`);
agrees with `calculate_iou` whenever the latter does not raise. -/
def iouVal (box1 box2 : Box) : ℚ :=
  let x_left := max box1.x_min box2.x_min
  let y_top := max box1.y_min box2.y_min
  let x_right := min box1.x_max box2.x_max
  let y_bottom := min box1.y_max box2.y_max
  if x_right < x_left ∨ y_bottom < y_top then 0
  else
    let overlap_area := (x_right - x_left) * (y_bottom - y_top)
    let total_area := box1.area + box2.area - overlap_area
    overlap_area / total_area

/-- The accumulator loop of `find_best_matching_face` (app.py:90–102):
state is `(best_match, highest_iou)`, initialized `(None, 0)`; an exception
raised by `calculate_iou` propagates out of the loop. -/
def fbLoop (bbox : Box) : List Box → Option Box → ℚ → Except Unit (Option Box)
  | [], best, _ => .ok best
  | d :: rest, best, highest_iou =>
    match calculate_iou bbox d with
    | .error e => .error e
    | .ok iou_score =>
      if highest_iou < iou_score then fbLoop bbox rest (some d) iou_score
      else fbLoop bbox rest best highest_iou

/-- Embedding of `find_best_matching_face` (app.py:83–104), over the list of detector
boxes.  The `if len(dets)` guard is the identity on this loop. -/
def find_best_matching_face (bbox : Box) (dets : List Box) :
    Except Unit (Option Box) :=
  fbLoop bbox dets none 0

/-- Pure rendering of the same loop via `iouVal`, used to reason about
`fbLoop` once the IoU calls are known not to raise. -/
def findBestPure (bbox : Box) : List Box → Option Box → ℚ → Option Box
  | [], best, _ => best
  | d :: rest, best, highest_iou =>
    if highest_iou < iouVal bbox d then
      findBestPure bbox rest (some d) (iouVal bbox d)
    else findBestPure bbox rest best highest_iou

/-- An image, carrying only its pixel dimensions (`shape[0] = height`,
`shape[1] = width`). -/
structure Image where
  height : ℕ
  width : ℕ

/-- Python `int()` truncation toward zero on a rational. -/
def pytrunc (q : ℚ) : ℤ :=
  if 0 ≤ q then ⌊q⌋ else ⌈q⌉

/-- A request-supplied box dictionary: each coordinate key may be missing
(`none`), in which case reading it raises `KeyError`. -/
structure RawBox where
  x_min : Option ℚ
  y_min : Option ℚ
  x_max : Option ℚ
  y_max : Option ℚ
deriving DecidableEq

/-- The raw dictionary holding exactly the four coordinates of `b`. -/
def Box.raw (b : Box) : RawBox :=
  ⟨some b.x_min, some b.y_min, some b.x_max, some b.y_max⟩

/-- Reading all four coordinate keys of a raw box; a missing key is a
`KeyError`. -/
def rawToBox (bbox : RawBox) : Except Unit Box :=
  match bbox.x_min, bbox.y_min, bbox.x_max, bbox.y_max with
  | some a, some b, some c, some d => .ok ⟨a, b, c, d⟩
  | _, _, _, _ => .error ()

/-- A rectangular region of an image, as half-open pixel slices
`[y0:y1, x0:x1]`. -/
structure CropRegion where
  x0 : ℤ
  y0 : ℤ
  x1 : ℤ
  y1 : ℤ
deriving DecidableEq

/-- numpy slice width: empty when the slice is inverted. -/
def CropRegion.width (c : CropRegion) : ℤ := max 0 (c.x1 - c.x0)

/-- numpy slice height: empty when the slice is inverted. -/
def CropRegion.height (c : CropRegion) : ℤ := max 0 (c.y1 - c.y0)

/-- Embedding of `crop_face_simple` (app.py:210–228).  Reads the four coordinate keys
(raising `KeyError` on a malformed box — this exception is NOT caught in
this function), pads by `min(width*percentage, height*percentage)`, clamps
to the image bounds and returns the sliced region. -/
def crop_face_simple (image : Image) (bbox : RawBox) (percentage : ℚ) :
    Except Unit CropRegion :=
  match bbox.x_min, bbox.y_min, bbox.x_max, bbox.y_max with
  | some x_min, some y_min, some x_max, some y_max =>
    let width := x_max - x_min
    let height := y_max - y_min
    let relaxation := min (width * percentage) (height * percentage)
    let x_min_relaxed := max 0 (pytrunc (x_min - relaxation))
    let y_min_relaxed := max 0 (pytrunc (y_min - relaxation))
    let x_max_relaxed := min (image.width : ℤ) (pytrunc (x_max + relaxation))
    let y_max_relaxed := min (image.height : ℤ) (pytrunc (y_max + relaxation))
    .ok ⟨x_min_relaxed, y_min_relaxed, x_max_relaxed, y_max_relaxed⟩
  | _, _, _, _ => .error ()

/-- The `MIN_PADDING` constant (app.py:27). -/
def MIN_PADDING : ℚ := 25

/-- The padding relaxation of the aligned cropper (app.py:170–171):
`max(MIN_PADDING, min(w*0.2, h*0.2))`. -/
def alignedRelaxation (w h : ℚ) : ℚ :=
  max MIN_PADDING (min (w * 0.2) (h * 0.2))

/-- The loose-crop rectangle arithmetic of the aligned cropper
(app.py:173–176): origin clamped to ≥ 0, extent clamped against the space
left from the UNCLAMPED tight origin `(x, y)`. -/
def alignedLooseRect (imgW imgH : ℕ) (x y w h : ℤ) : ℤ × ℤ × ℤ × ℤ :=
  let relaxation := alignedRelaxation (w : ℚ) (h : ℚ)
  let px := round (max 0 ((x : ℚ) - relaxation))
  let py := round (max 0 ((y : ℚ) - relaxation))
  let pw := round (min ((w : ℚ) + 2 * relaxation) ((imgW : ℚ) - (x : ℚ)))
  let ph := round (min ((h : ℚ) + 2 * relaxation) ((imgH : ℚ) - (y : ℚ)))
  (px, py, pw, ph)

/-- A 68-point landmark set: index `i` holds landmark `i` (only indices
below 68 are meaningful). -/
def Landmarks : Type := ℕ → ℚ × ℚ

/-- Mean of the landmark points with indices in `[a, b)`
(`np.mean(..., axis=0)` over `range(a, b)`). -/
def meanRange (L : Landmarks) (a b : ℕ) : ℚ × ℚ :=
  ((∑ i in Finset.Ico a b, (L i).1) / ((b : ℚ) - (a : ℚ)),
   (∑ i in Finset.Ico a b, (L i).2) / ((b : ℚ) - (a : ℚ)))

/-- Left-eye mean, landmarks 36–41 (app.py:113,119). -/
def mean_left_eye (L : Landmarks) : ℚ × ℚ := meanRange L 36 42

/-- Right-eye mean, landmarks 42–47 (app.py:114,120). -/
def mean_right_eye (L : Landmarks) : ℚ × ℚ := meanRange L 42 48

/-- Nose mean, landmarks 27–35 (app.py:115,121). -/
def mean_nose (L : Landmarks) : ℚ × ℚ := meanRange L 27 36

/-- Mouth mean, landmarks 48–67 (app.py:116,122); computed but unused in
the angle/pivot derivation. -/
def mean_mouth (L : Landmarks) : ℚ × ℚ := meanRange L 48 68

/-- The function `np.arctan2 y x`, as the argument of the complex number `x + y·i`. -/
noncomputable def atan2 (y x : ℝ) : ℝ := Complex.arg ⟨x, y⟩

/-- The function `np.degrees`: radians to degrees. -/
noncomputable def degrees (r : ℝ) : ℝ := r * 180 / Real.pi

/-- The rotation pivot of `calc_normalized_matrix` (app.py:133–134):
equal-weighted average of the two eye means and the nose mean. -/
def matrixCenter (L : Landmarks) : ℚ × ℚ :=
  (((mean_left_eye L).1 + (mean_right_eye L).1 + (mean_nose L).1) / 3,
   ((mean_left_eye L).2 + (mean_right_eye L).2 + (mean_nose L).2) / 3)

/-- The rotation angle of `calc_normalized_matrix` (app.py:125–130), in
degrees. -/
noncomputable def matrixAngle (L : Landmarks) : ℝ :=
  degrees (atan2
    (((mean_right_eye L).2 : ℝ) - ((mean_left_eye L).2 : ℝ))
    (((mean_right_eye L).1 : ℝ) - ((mean_left_eye L).1 : ℝ)))

/-- The parameters handed to `cv2.getRotationMatrix2D`. -/
structure RotationMatrixParams where
  center : ℚ × ℚ
  angle : ℝ
  scale : ℝ

/-- Embedding of `calc_normalized_matrix` (app.py:107–136), modelled by the parameters
of the rotation matrix it builds: pivot, angle in degrees, scale `1.0`. -/
noncomputable def calc_normalized_matrix (L : Landmarks) : RotationMatrixParams :=
  ⟨matrixCenter L, matrixAngle L, 1⟩

/-- One detection of the dlib detector: `scores[i]` and `idx[i]` (the box
is carried separately where needed). -/
structure Detection where
  score : ℚ
  idx : ℕ
deriving DecidableEq

/-- The table `DLIB_SUBD` (app.py:62), the fixed 7-entry pose category table. -/
def DLIB_SUBD : List String :=
  ["front", "left", "right", "front-rotate-left", "front-rotate-right",
   "n/a", "n/a"]

/-- The dictionary returned by `dlib_confidence_score`. -/
structure ConfidenceResult where
  score : ℚ
  type : String
  type_raw : ℕ
deriving DecidableEq

/-- Embedding of `dlib_confidence_score` (app.py:188–207).  `run` models everything up
to `detector.run` on the RGB-converted crop (an `.error` is an exception
from the conversion or the detector).  The whole body is inside
`try/except`: any exception — including an out-of-range pose index in the
`DLIB_SUBD` table lookup — is caught and yields `None`; an empty detection
list also yields `None`. -/
def dlib_confidence_score (run : Except Unit (List Detection)) :
    Option ConfidenceResult :=
  match run with
  | .error _ => none
  | .ok [] => none
  | .ok (d :: _) =>
    match DLIB_SUBD.get? d.idx with
    | none => none
    | some t => some ⟨d.score, t, d.idx⟩

/-- The pair returned by `crop_face_aligned`: padded and exact regions of
the transformed image. -/
structure CropPair where
  loose : CropRegion
  tight : CropRegion
deriving DecidableEq

/-- Oracles for the external collaborators invoked by `crop_face_aligned`:
grayscale conversion (app.py:144), the detector pass inside
`find_best_matching_face` (app.py:85), the landmark predictor
(app.py:151), `cv2.warpAffine` (app.py:155) and the
`cv2.transform`/`boundingRect` step (app.py:163–167). -/
structure AlignedOracles where
  grayConvert : Except Unit Unit
  detect : Except Unit (List Box)
  predictLandmarks : Box → Except Unit Landmarks
  warpAffine : Except Unit Unit
  transformedRect : Except Unit (ℤ × ℤ × ℤ × ℤ)

/-- The body of `crop_face_aligned`'s `try` block (app.py:146–181), with
exceptions propagating: box-key reads, detector re-match, landmark
prediction, transform application and the loose/tight crop arithmetic.
Reading the box's coordinate keys happens inside the `try` (within
`calculate_iou`); hoisting the read before the loop is observationally
identical since either way the exception is caught by the caller. -/
def alignedBody (o : AlignedOracles) (img : Image) (bbox : RawBox) :
    Except Unit (Option CropPair) :=
  match rawToBox bbox with
  | .error e => .error e
  | .ok b =>
    match o.detect with
    | .error e => .error e
    | .ok dets =>
      match find_best_matching_face b dets with
      | .error e => .error e
      | .ok none => .ok none
      | .ok (some best) =>
        match o.predictLandmarks best with
        | .error e => .error e
        | .ok lms =>
          let _center := matrixCenter lms
          match o.warpAffine with
          | .error e => .error e
          | .ok _ =>
            match o.transformedRect with
            | .error e => .error e
            | .ok (x, y, w, h) =>
              let (px, py, pw, ph) :=
                alignedLooseRect img.width img.height x y w h
              .ok (some (CropPair.mk ⟨px, py, px + pw, py + ph⟩
                ⟨x, y, x + w, y + h⟩))

/-- Embedding of `crop_face_aligned` (app.py:139–185).  The grayscale conversion is
evaluated OUTSIDE the `try`, so its exception propagates; every later
step (the whole `alignedBody`) is inside the `try` and any exception
there is caught and converted to `None` (`.ok none`). -/
def crop_face_aligned (o : AlignedOracles) (img : Image) (bbox : RawBox) :
    Except Unit (Option CropPair) :=
  match o.grayConvert with
  | .error e => .error e
  | .ok _ =>
    match alignedBody o img bbox with
    | .error _ => .ok none
    | .ok r => .ok r

/-- One input face record of `/quality/assess`: the `box` value (`none`
models a missing or falsy `box` key) and the record's remaining keys. -/
structure FaceRecord (α : Type) where
  box : Option RawBox
  extra : List (String × α)

/-- One output record of `/quality/assess`: the reserved computed fields
plus the passthrough keys copied from the input record. -/
structure FaceAssessment (α : Type) where
  box : RawBox
  confidence : Option ConfidenceResult
  cropped_size : ℤ × ℤ
  extra : List (String × α)

/-- The keys already present in `result_face` when the passthrough copy
loop runs (app.py:355–364). -/
def RESERVED_KEYS : List String := ["box", "confidence", "cropped_size"]

/-- The per-face loop of `assess_quality` (app.py:334–366).  A face whose
`box` is missing/falsy is skipped; otherwise the aligned crop is tried,
falling back to `crop_face_simple` with the default `percentage=0.1`; an
exception escaping either cropper propagates (it is only caught by the
endpoint's outer handler, aborting the whole call); otherwise the
confidence is scored on the crop and the output record is emitted with
input keys copied unless they collide with the reserved keys. -/
def assess_quality {α : Type} (o : AlignedOracles) (img : Image)
    (detectOnCrop : CropRegion → Except Unit (List Detection)) :
    List (FaceRecord α) → Except Unit (List (FaceAssessment α))
  | [] => .ok []
  | f :: rest =>
    match f.box with
    | none => assess_quality o img detectOnCrop rest
    | some bbox =>
      let cropE : Except Unit CropRegion :=
        match crop_face_aligned o img bbox with
        | .error e => .error e
        | .ok (some cropped_data) => .ok cropped_data.loose
        | .ok none => crop_face_simple img bbox 0.1
      match cropE with
      | .error e => .error e
      | .ok crop =>
        let confidence := dlib_confidence_score (detectOnCrop crop)
        let result : FaceAssessment α :=
          ⟨bbox, confidence, (crop.width, crop.height),
            f.extra.filter (fun kv => !(RESERVED_KEYS.contains kv.1))⟩
        match assess_quality o img detectOnCrop rest with
        | .error e => .error e
        | .ok out => .ok (result :: out)

/-! ## Concrete inputs used in witnesses and evaluations -/

/-- A landmark set with all points left of index 42 at `(0, 5)` and the
rest at `(10, 5)`: both eye means sit at height `5`, the right-eye mean to
the right of the left-eye mean. -/
def Lflat : Landmarks := fun i => (if i < 42 then (0 : ℚ) else 10, 5)

/-- A concrete well-formed query box. -/
def boxW : Box := ⟨0, 0, 10, 10⟩

/-- A concrete 1000×1000 image. -/
def imgW : Image := ⟨1000, 1000⟩

/-- Concrete aligned-cropper oracles: every external step succeeds, the
detector returns exactly `boxW`, the transformed landmark rectangle is
`(2, 2, 4, 4)`. -/
def oW : AlignedOracles :=
  ⟨.ok (), .ok [boxW], fun _ => .ok Lflat, .ok (), .ok (2, 2, 4, 4)⟩

/-- The crop pair `crop_face_aligned` produces from `oW` on `imgW`:
relaxation `max 25 (min 0.8 0.8) = 25`, loose origin clamped to `(0, 0)`,
loose extent `round (min 54 998) = 54`. -/
def cpW : CropPair := ⟨⟨0, 0, 54, 54⟩, ⟨2, 2, 6, 6⟩⟩

/-- Oracles whose grayscale conversion itself raises. -/
def oGrayFail : AlignedOracles :=
  ⟨.error (), .ok [], fun _ => .error (), .error (), .error ()⟩

/-- Oracles whose detector pass raises (inside the `try`). -/
def oDetectFail : AlignedOracles :=
  ⟨.ok (), .error (), fun _ => .error (), .error (), .error ()⟩

/-- Oracles under which alignment finds no detections, so the aligned
cropper returns `None` and the orchestrator falls back to `simple_crop`. -/
def oC2 : AlignedOracles :=
  ⟨.ok (), .ok [], fun _ => .error (), .error (), .error ()⟩

/-- A detector-on-crop oracle finding no faces in any crop. -/
def detEmpty : CropRegion → Except Unit (List Detection) := fun _ => .ok []

/-- The malformed request box of the C2 failing input: `y_max` missing. -/
def malBox : RawBox := ⟨some 0, some 0, some 10, none⟩

/-- The well-formed request box of the C2 failing input. -/
def goodBox : RawBox := (Box.mk 100 100 200 200).raw

/-! ## Helper lemmas about the IoU computation -/

/-- Under the data-model box invariant, the denominator of the IoU
division is strictly positive. -/
theorem iou_den_pos (b1 b2 : Box) (h1 : b1.wellFormed) (h2 : b2.wellFormed)
    (hx : max b1.x_min b2.x_min ≤ min b1.x_max b2.x_max)
    (hy : max b1.y_min b2.y_min ≤ min b1.y_max b2.y_max) :
    0 < (b1.x_max - b1.x_min) * (b1.y_max - b1.y_min) +
      (b2.x_max - b2.x_min) * (b2.y_max - b2.y_min) -
      (min b1.x_max b2.x_max - max b1.x_min b2.x_min) *
        (min b1.y_max b2.y_max - max b1.y_min b2.y_min) := by
  obtain ⟨h1x, h1y⟩ := h1
  obtain ⟨h2x, h2y⟩ := h2
  have hA0 : (0 : ℚ) ≤ min b1.x_max b2.x_max - max b1.x_min b2.x_min := by
    linarith
  have hB0 : (0 : ℚ) ≤ min b1.y_max b2.y_max - max b1.y_min b2.y_min := by
    linarith
  have hA2 : min b1.x_max b2.x_max - max b1.x_min b2.x_min ≤
      b2.x_max - b2.x_min := by
    have := min_le_right b1.x_max b2.x_max
    have := le_max_right b1.x_min b2.x_min
    linarith
  have hB2 : min b1.y_max b2.y_max - max b1.y_min b2.y_min ≤
      b2.y_max - b2.y_min := by
    have := min_le_right b1.y_max b2.y_max
    have := le_max_right b1.y_min b2.y_min
    linarith
  have hov : (min b1.x_max b2.x_max - max b1.x_min b2.x_min) *
      (min b1.y_max b2.y_max - max b1.y_min b2.y_min) ≤
      (b2.x_max - b2.x_min) * (b2.y_max - b2.y_min) :=
    mul_le_mul hA2 hB2 hB0 (by linarith)
  have ha1 : 0 < (b1.x_max - b1.x_min) * (b1.y_max - b1.y_min) :=
    mul_pos (by linarith) (by linarith)
  linarith

/-- The overlap area never exceeds the first box's area. -/
theorem iou_ov_le_left (b1 b2 : Box) (h1 : b1.wellFormed)
    (hx : max b1.x_min b2.x_min ≤ min b1.x_max b2.x_max)
    (hy : max b1.y_min b2.y_min ≤ min b1.y_max b2.y_max) :
    (min b1.x_max b2.x_max - max b1.x_min b2.x_min) *
      (min b1.y_max b2.y_max - max b1.y_min b2.y_min) ≤
      (b1.x_max - b1.x_min) * (b1.y_max - b1.y_min) := by
  obtain ⟨h1x, h1y⟩ := h1
  have hA0 : (0 : ℚ) ≤ min b1.x_max b2.x_max - max b1.x_min b2.x_min := by
    linarith
  have hB0 : (0 : ℚ) ≤ min b1.y_max b2.y_max - max b1.y_min b2.y_min := by
    linarith
  have hA1 : min b1.x_max b2.x_max - max b1.x_min b2.x_min ≤
      b1.x_max - b1.x_min := by
    have := min_le_left b1.x_max b2.x_max
    have := le_max_left b1.x_min b2.x_min
    linarith
  have hB1 : min b1.y_max b2.y_max - max b1.y_min b2.y_min ≤
      b1.y_max - b1.y_min := by
    have := min_le_left b1.y_max b2.y_max
    have := le_max_left b1.y_min b2.y_min
    linarith
  exact mul_le_mul hA1 hB1 hB0 (by linarith)

/-- On well-formed boxes `calculate_iou` never raises and agrees with the
total function `iouVal`. -/
theorem calculate_iou_ok_of_wf (b1 b2 : Box) (h1 : b1.wellFormed)
    (h2 : b2.wellFormed) :
    calculate_iou b1 b2 = .ok (iouVal b1 b2) := by
  simp only [calculate_iou, iouVal, Box.area]
  by_cases hg : min b1.x_max b2.x_max < max b1.x_min b2.x_min ∨
      min b1.y_max b2.y_max < max b1.y_min b2.y_min
  · rw [if_pos hg, if_pos hg]
  · have hg' := hg
    push_neg at hg'
    have hd := iou_den_pos b1 b2 h1 h2 hg'.1 hg'.2
    rw [if_neg hg, if_neg hg, if_neg (ne_of_gt hd)]

/-- The total IoU value is symmetric in its two boxes. -/
theorem iouVal_comm (a b : Box) : iouVal a b = iouVal b a := by
  simp only [iouVal]
  rw [min_comm b.x_max a.x_max, max_comm b.x_min a.x_min,
    min_comm b.y_max a.y_max, max_comm b.y_min a.y_min,
    add_comm b.area a.area]

/-- On well-formed boxes the IoU value lies in `[0, 1]`. -/
theorem iouVal_bounds (a b : Box) (ha : a.wellFormed) (hb : b.wellFormed) :
    0 ≤ iouVal a b ∧ iouVal a b ≤ 1 := by
  simp only [iouVal]
  by_cases hg : min a.x_max b.x_max < max a.x_min b.x_min ∨
      min a.y_max b.y_max < max a.y_min b.y_min
  · rw [if_pos hg]; norm_num
  · have hg' := hg
    push_neg at hg'
    rw [if_neg hg]
    have hd := iou_den_pos a b ha hb hg'.1 hg'.2
    simp only [Box.area] at hd ⊢
    have hov0 : 0 ≤ (min a.x_max b.x_max - max a.x_min b.x_min) *
        (min a.y_max b.y_max - max a.y_min b.y_min) :=
      mul_nonneg (by linarith [hg'.1]) (by linarith [hg'.2])
    have hova : (min a.x_max b.x_max - max a.x_min b.x_min) *
        (min a.y_max b.y_max - max a.y_min b.y_min) ≤
        (a.x_max - a.x_min) * (a.y_max - a.y_min) :=
      iou_ov_le_left a b ha hg'.1 hg'.2
    have hovb : (min a.x_max b.x_max - max a.x_min b.x_min) *
        (min a.y_max b.y_max - max a.y_min b.y_min) ≤
        (b.x_max - b.x_min) * (b.y_max - b.y_min) := by
      have hA2 : min a.x_max b.x_max - max a.x_min b.x_min ≤
          b.x_max - b.x_min := by
        have := min_le_right a.x_max b.x_max
        have := le_max_right a.x_min b.x_min
        linarith
      have hB2 : min a.y_max b.y_max - max a.y_min b.y_min ≤
          b.y_max - b.y_min := by
        have := min_le_right a.y_max b.y_max
        have := le_max_right a.y_min b.y_min
        linarith
      exact mul_le_mul hA2 hB2 (by linarith [hg'.2]) (by linarith [hb.1])
    constructor
    · exact div_nonneg hov0 (by linarith)
    · rw [div_le_one (by linarith)]
      linarith

/-- C7 supporting fact: IoU of a well-formed box with itself is `1.0`. -/
theorem calculate_iou_self (a : Box) (ha : a.wellFormed) :
    calculate_iou a a = .ok 1 := by
  obtain ⟨hx, hy⟩ := ha
  have harea : 0 < (a.x_max - a.x_min) * (a.y_max - a.y_min) :=
    mul_pos (by linarith) (by linarith)
  simp only [calculate_iou, min_self, max_self]
  rw [if_neg (by push_neg; exact ⟨le_of_lt hx, le_of_lt hy⟩)]
  have htot : (a.x_max - a.x_min) * (a.y_max - a.y_min) +
      (a.x_max - a.x_min) * (a.y_max - a.y_min) -
      (a.x_max - a.x_min) * (a.y_max - a.y_min) =
      (a.x_max - a.x_min) * (a.y_max - a.y_min) := by ring
  rw [htot, if_neg (ne_of_gt harea), div_self (ne_of_gt harea)]

/-! ## Claim theorems -/

/-- C7: for well-formed boxes `a`, `b` the IoU is symmetric
(`iou(a,b) = iou(b,a)`), lies in `[0,1]`, equals `1.0` on `iou(a,a)`, and
equals `0.0` whenever the boxes do not overlap in some axis. -/
theorem claim_C7 (a b : Box) (ha : a.wellFormed) (hb : b.wellFormed) :
    (∃ q, calculate_iou a b = .ok q ∧ calculate_iou b a = .ok q ∧
      0 ≤ q ∧ q ≤ 1) ∧
    calculate_iou a a = .ok 1 ∧
    ((min a.x_max b.x_max < max a.x_min b.x_min ∨
      min a.y_max b.y_max < max a.y_min b.y_min) →
      calculate_iou a b = .ok 0) := by
  refine ⟨⟨iouVal a b, calculate_iou_ok_of_wf a b ha hb, ?_,
      (iouVal_bounds a b ha hb).1, (iouVal_bounds a b ha hb).2⟩,
    calculate_iou_self a ha, fun hg => ?_⟩
  · rw [calculate_iou_ok_of_wf b a hb ha, iouVal_comm a b]
  · simp only [calculate_iou]
    rw [if_pos hg]

/-- C7 witness: the two example boxes of the spec's testable properties. -/
theorem claim_C7_witness :
    (∃ q, calculate_iou ⟨0, 0, 10, 10⟩ ⟨20, 20, 30, 30⟩ = .ok q ∧
      calculate_iou ⟨20, 20, 30, 30⟩ ⟨0, 0, 10, 10⟩ = .ok q ∧
      0 ≤ q ∧ q ≤ 1) ∧
    calculate_iou ⟨0, 0, 10, 10⟩ ⟨0, 0, 10, 10⟩ = .ok 1 ∧
    ((min (10 : ℚ) 30 < max (0 : ℚ) 20 ∨ min (10 : ℚ) 30 < max (0 : ℚ) 20) →
      calculate_iou ⟨0, 0, 10, 10⟩ ⟨20, 20, 30, 30⟩ = .ok 0) :=
  claim_C7 ⟨0, 0, 10, 10⟩ ⟨20, 20, 30, 30⟩
    ⟨by norm_num, by norm_num⟩ ⟨by norm_num, by norm_num⟩

/-- C6 counterexample: two identical degenerate (zero-area) boxes make the
union area `0`, and the unguarded division raises `ZeroDivisionError`
instead of returning `0`. -/
theorem claim_C6_counterexample :
    Box.area ⟨0, 0, 0, 0⟩ = 0 ∧
    calculate_iou ⟨0, 0, 0, 0⟩ ⟨0, 0, 0, 0⟩ = .error () := by
  constructor
  · norm_num [Box.area]
  · norm_num [calculate_iou]

/-- C6 (amended): for a pair of degenerate (zero-area) axis-aligned boxes,
`calculate_iou` returns `0.0` exactly when the early non-overlap guard
fires; otherwise the union area is `0` and the unguarded division raises
`ZeroDivisionError` (embedded as `.error ()`) — in particular two
identical degenerate boxes raise rather than return `0`. -/
theorem claim_C6 (b1 b2 : Box)
    (h1x : b1.x_min ≤ b1.x_max) (h1y : b1.y_min ≤ b1.y_max)
    (h2x : b2.x_min ≤ b2.x_max) (h2y : b2.y_min ≤ b2.y_max)
    (ha1 : b1.area = 0) (ha2 : b2.area = 0) :
    ((min b1.x_max b2.x_max < max b1.x_min b2.x_min ∨
      min b1.y_max b2.y_max < max b1.y_min b2.y_min) →
      calculate_iou b1 b2 = .ok 0) ∧
    (¬(min b1.x_max b2.x_max < max b1.x_min b2.x_min ∨
       min b1.y_max b2.y_max < max b1.y_min b2.y_min) →
      calculate_iou b1 b2 = .error ()) := by
  constructor
  · intro hg
    simp only [calculate_iou]
    rw [if_pos hg]
  · intro hg
    have hg' := hg
    push_neg at hg'
    simp only [Box.area] at ha1 ha2
    have hov : (min b1.x_max b2.x_max - max b1.x_min b2.x_min) *
        (min b1.y_max b2.y_max - max b1.y_min b2.y_min) = 0 := by
      rcases mul_eq_zero.mp ha1 with h | h
      · have hle : min b1.x_max b2.x_max - max b1.x_min b2.x_min ≤ 0 := by
          have := min_le_left b1.x_max b2.x_max
          have := le_max_left b1.x_min b2.x_min
          linarith
        have h0 : min b1.x_max b2.x_max - max b1.x_min b2.x_min = 0 :=
          le_antisymm hle (by linarith [hg'.1])
        rw [h0, zero_mul]
      · have hle : min b1.y_max b2.y_max - max b1.y_min b2.y_min ≤ 0 := by
          have := min_le_left b1.y_max b2.y_max
          have := le_max_left b1.y_min b2.y_min
          linarith
        have h0 : min b1.y_max b2.y_max - max b1.y_min b2.y_min = 0 :=
          le_antisymm hle (by linarith [hg'.2])
        rw [h0, mul_zero]
    simp only [calculate_iou]
    rw [if_neg hg]
    have htot : (b1.x_max - b1.x_min) * (b1.y_max - b1.y_min) +
        (b2.x_max - b2.x_min) * (b2.y_max - b2.y_min) -
        (min b1.x_max b2.x_max - max b1.x_min b2.x_min) *
          (min b1.y_max b2.y_max - max b1.y_min b2.y_min) = 0 := by
      rw [ha1, ha2, hov]; ring
    rw [if_pos htot]

/-- C6 witness: a separated degenerate pair returns `0.0`; an overlapping
degenerate pair (distinct from the counterexample's) raises. -/
theorem claim_C6_witness :
    calculate_iou ⟨0, 0, 0, 0⟩ ⟨5, 5, 5, 5⟩ = .ok 0 ∧
    calculate_iou ⟨0, 0, 0, 10⟩ ⟨0, 0, 0, 10⟩ = .error () := by
  constructor
  · exact (claim_C6 ⟨0, 0, 0, 0⟩ ⟨5, 5, 5, 5⟩ (by norm_num) (by norm_num)
      (by norm_num) (by norm_num) (by norm_num [Box.area])
      (by norm_num [Box.area])).1 (by norm_num)
  · exact (claim_C6 ⟨0, 0, 0, 10⟩ ⟨0, 0, 0, 10⟩ (by norm_num) (by norm_num)
      (by norm_num) (by norm_num) (by norm_num [Box.area])
      (by norm_num [Box.area])).2 (by norm_num)

/-- Unfolding equation for one step of the matcher loop. -/
theorem fbLoop_cons (bbox d : Box) (rest : List Box) (best : Option Box)
    (hi : ℚ) :
    fbLoop bbox (d :: rest) best hi =
      match calculate_iou bbox d with
      | .error e => .error e
      | .ok iou_score =>
        if hi < iou_score then fbLoop bbox rest (some d) iou_score
        else fbLoop bbox rest best hi := rfl

/-- Unfolding equation for one step of the pure matcher loop. -/
theorem findBestPure_cons (bbox d : Box) (rest : List Box)
    (best : Option Box) (hi : ℚ) :
    findBestPure bbox (d :: rest) best hi =
      if hi < iouVal bbox d then findBestPure bbox rest (some d) (iouVal bbox d)
      else findBestPure bbox rest best hi := rfl

/-- On well-formed boxes the matcher loop never raises and equals its pure
rendering. -/
theorem fbLoop_eq_pure (bbox : Box) (hb : bbox.wellFormed) :
    ∀ (dets : List Box), (∀ d ∈ dets, d.wellFormed) →
    ∀ (best : Option Box) (hi : ℚ),
      fbLoop bbox dets best hi = .ok (findBestPure bbox dets best hi) := by
  intro dets
  induction dets with
  | nil => intro _ best hi; rfl
  | cons d rest ih =>
    intro hwf best hi
    have hd : d.wellFormed := hwf d (by simp)
    have hrest : ∀ x ∈ rest, x.wellFormed := fun x hx => hwf x (by simp [hx])
    rw [fbLoop_cons bbox d rest best hi, calculate_iou_ok_of_wf bbox d hb hd]
    show (if hi < iouVal bbox d then fbLoop bbox rest (some d) (iouVal bbox d)
        else fbLoop bbox rest best hi) =
      .ok (findBestPure bbox (d :: rest) best hi)
    rw [findBestPure_cons bbox d rest best hi]
    by_cases hlt : hi < iouVal bbox d
    · rw [if_pos hlt, if_pos hlt]; exact ih hrest _ _
    · rw [if_neg hlt, if_neg hlt]; exact ih hrest _ _

/-- When no remaining detection beats the running maximum, the loop keeps
its accumulator. -/
theorem findBestPure_no_update (bbox : Box) :
    ∀ (dets : List Box) (best : Option Box) (hi : ℚ),
      (∀ d ∈ dets, iouVal bbox d ≤ hi) →
      findBestPure bbox dets best hi = best := by
  intro dets
  induction dets with
  | nil => intro best hi _; rfl
  | cons d rest ih =>
    intro best hi h
    have hd := h d (by simp)
    simp only [findBestPure, if_neg (not_lt.mpr hd)]
    exact ih best hi (fun x hx => h x (by simp [hx]))

/-- When some remaining detection beats the running maximum, the loop ends
on the first detection attaining the overall maximum IoU. -/
theorem findBestPure_argmax (bbox : Box) :
    ∀ (dets : List Box) (best : Option Box) (hi : ℚ),
      (∃ d ∈ dets, hi < iouVal bbox d) →
      ∃ l1 b l2, dets = l1 ++ b :: l2 ∧
        findBestPure bbox dets best hi = some b ∧
        hi < iouVal bbox b ∧
        (∀ a ∈ l1, iouVal bbox a < iouVal bbox b) ∧
        (∀ d ∈ l2, iouVal bbox d ≤ iouVal bbox b) := by
  intro dets
  induction dets with
  | nil =>
    rintro best hi ⟨d, hd, -⟩
    exact absurd hd (List.not_mem_nil d)
  | cons d rest ih =>
    intro best hi hex
    by_cases hlt : hi < iouVal bbox d
    · by_cases hex2 : ∃ e ∈ rest, iouVal bbox d < iouVal bbox e
      · obtain ⟨l1, b, l2, hdec, hres, hgt, hl1, hl2⟩ :=
          ih (some d) (iouVal bbox d) hex2
        refine ⟨d :: l1, b, l2, by rw [hdec]; rfl, ?_, lt_trans hlt hgt,
          ?_, hl2⟩
        · simp only [findBestPure, if_pos hlt]; exact hres
        · intro a ha
          rcases List.mem_cons.mp ha with rfl | ha
          · exact hgt
          · exact hl1 a ha
      · push_neg at hex2
        refine ⟨[], d, rest, rfl, ?_, hlt, by simp, hex2⟩
        simp only [findBestPure, if_pos hlt]
        exact findBestPure_no_update bbox rest (some d) (iouVal bbox d) hex2
    · obtain ⟨e, he, hhi⟩ := hex
      have he' : e ∈ rest := by
        rcases List.mem_cons.mp he with rfl | h
        · exact absurd hhi hlt
        · exact h
      obtain ⟨l1, b, l2, hdec, hres, hgt, hl1, hl2⟩ :=
        ih best hi ⟨e, he', hhi⟩
      refine ⟨d :: l1, b, l2, by rw [hdec]; rfl, ?_, hgt, ?_, hl2⟩
      · simp only [findBestPure, if_neg hlt]; exact hres
      · intro a ha
        rcases List.mem_cons.mp ha with rfl | ha
        · exact lt_of_le_of_lt (not_lt.mp hlt) hgt
        · exact hl1 a ha

/-- C1 counterexample: the detector returns exactly one detection, whose
IoU with the query box is `0`; the claim requires a detection to be
returned, but `find_best_matching_face` returns `None` (its running
maximum starts at `0` and only a strictly greater IoU updates it). -/
theorem claim_C1_counterexample :
    (([⟨20, 20, 30, 30⟩] : List Box) ≠ []) ∧
    calculate_iou ⟨0, 0, 10, 10⟩ ⟨20, 20, 30, 30⟩ = .ok 0 ∧
    find_best_matching_face ⟨0, 0, 10, 10⟩ [⟨20, 20, 30, 30⟩] = .ok none := by
  have h0 : calculate_iou ⟨0, 0, 10, 10⟩ ⟨20, 20, 30, 30⟩ = .ok 0 := by
    norm_num [calculate_iou]
  refine ⟨by simp, h0, ?_⟩
  show fbLoop ⟨0, 0, 10, 10⟩ [⟨20, 20, 30, 30⟩] none 0 = .ok none
  rw [fbLoop_cons, h0]
  show (if (0 : ℚ) < 0 then fbLoop ⟨0, 0, 10, 10⟩ [] (some ⟨20, 20, 30, 30⟩) 0
      else fbLoop ⟨0, 0, 10, 10⟩ [] none 0) = .ok none
  rw [if_neg (lt_irrefl (0 : ℚ))]
  rfl

/-- C1 (amended): on well-formed boxes, `find_best_matching_face` returns
absent both when the detector returns no detections and when every
detection has IoU `0` with the query box; when some detection has strictly
positive IoU it returns the first detection (in detector order) attaining
the maximal IoU. -/
theorem claim_C1 (bbox : Box) (dets : List Box) (hb : bbox.wellFormed)
    (hdets : ∀ d ∈ dets, d.wellFormed) :
    ((∀ d ∈ dets, iouVal bbox d = 0) →
      find_best_matching_face bbox dets = .ok none) ∧
    ((∃ d ∈ dets, 0 < iouVal bbox d) →
      ∃ l1 b l2, dets = l1 ++ b :: l2 ∧
        find_best_matching_face bbox dets = .ok (some b) ∧
        0 < iouVal bbox b ∧
        (∀ a ∈ l1, iouVal bbox a < iouVal bbox b) ∧
        (∀ d ∈ dets, iouVal bbox d ≤ iouVal bbox b)) := by
  have hpure := fbLoop_eq_pure bbox hb dets hdets none 0
  constructor
  · intro hzero
    rw [find_best_matching_face, hpure,
      findBestPure_no_update bbox dets none 0
        (fun d hd => le_of_eq (hzero d hd))]
  · intro hex
    obtain ⟨l1, b, l2, hdec, hres, hgt, hl1, hl2⟩ :=
      findBestPure_argmax bbox dets none 0 hex
    refine ⟨l1, b, l2, hdec, ?_, hgt, hl1, ?_⟩
    · rw [find_best_matching_face, hpure, hres]
    · intro d hd
      rw [hdec] at hd
      rcases List.mem_append.mp hd with h | h
      · exact le_of_lt (hl1 d h)
      · rcases List.mem_cons.mp h with rfl | h
        · exact le_refl _
        · exact hl2 d h

/-- C1 witness: a single detection identical to the query box (IoU `1`)
is returned by the matcher. -/
theorem claim_C1_witness :
    find_best_matching_face ⟨0, 0, 10, 10⟩ [⟨0, 0, 10, 10⟩] =
      .ok (some ⟨0, 0, 10, 10⟩) := by
  obtain ⟨l1, b, l2, hdec, hres, -, -, -⟩ :=
    (claim_C1 ⟨0, 0, 10, 10⟩ [⟨0, 0, 10, 10⟩] ⟨by norm_num, by norm_num⟩
      (by
        intro d hd
        rw [List.mem_singleton] at hd
        subst hd
        exact ⟨by norm_num, by norm_num⟩)).2
      ⟨⟨0, 0, 10, 10⟩, by simp, by norm_num [iouVal, Box.area]⟩
  rcases l1 with _ | ⟨c, l1'⟩
  · rw [List.nil_append] at hdec
    injection hdec with h1 h2
    rw [← h1] at hres
    exact hres
  · exfalso
    injection hdec with h1 h2
    exact List.cons_ne_nil b l2 (List.append_eq_nil.mp h2.symm).2

/-- Reading back the raw dictionary of a box recovers the box. -/
theorem rawToBox_raw (b : Box) : rawToBox b.raw = .ok b := rfl

/-- The matcher keeps a detection identical to the query box. -/
theorem find_best_boxW :
    find_best_matching_face boxW [boxW] = .ok (some boxW) := by
  have h1 : calculate_iou boxW boxW = .ok 1 :=
    calculate_iou_self boxW ⟨by norm_num [boxW], by norm_num [boxW]⟩
  show fbLoop boxW [boxW] none 0 = .ok (some boxW)
  rw [fbLoop_cons, h1]
  show (if (0 : ℚ) < 1 then fbLoop boxW [] (some boxW) 1
      else fbLoop boxW [] none 0) = .ok (some boxW)
  rw [if_pos (by norm_num)]
  rfl

/-- Evaluation of the aligned cropper on the concrete witness oracles. -/
theorem crop_aligned_oW :
    crop_face_aligned oW imgW boxW.raw = .ok (some cpW) := by
  have hbody : alignedBody oW imgW boxW.raw = .ok (some cpW) := by
    simp only [alignedBody, oW, rawToBox_raw, find_best_boxW,
      alignedLooseRect, cpW]
    norm_num [alignedRelaxation, MIN_PADDING, imgW, round_eq, min_def,
      max_def]
  simp only [crop_face_aligned, hbody]
  rfl

/-- C8: `crop_face_simple` on a well-formed box pads by
`min(width*percentage, height*percentage)` on all sides, clamps the padded
rectangle to the image bounds, and always returns a crop (never absent);
on the spec's example (box `(100,100)-(200,200)`, `percentage=0.1`,
1000×1000 image) the relaxation is `10` and the crop region is
`(90,90)-(210,210)`. -/
theorem claim_C8 (image : Image) (x_min y_min x_max y_max percentage : ℚ)
    (h : x_min < x_max ∧ y_min < y_max) :
    crop_face_simple image ⟨some x_min, some y_min, some x_max, some y_max⟩
        percentage =
      .ok ⟨max 0 (pytrunc (x_min -
              min ((x_max - x_min) * percentage) ((y_max - y_min) * percentage))),
           max 0 (pytrunc (y_min -
              min ((x_max - x_min) * percentage) ((y_max - y_min) * percentage))),
           min (image.width : ℤ) (pytrunc (x_max +
              min ((x_max - x_min) * percentage) ((y_max - y_min) * percentage))),
           min (image.height : ℤ) (pytrunc (y_max +
              min ((x_max - x_min) * percentage) ((y_max - y_min) * percentage)))⟩ ∧
    min (((200 : ℚ) - 100) * 0.1) (((200 : ℚ) - 100) * 0.1) = 10 ∧
    crop_face_simple ⟨1000, 1000⟩ ⟨some 100, some 100, some 200, some 200⟩ 0.1 =
      .ok ⟨90, 90, 210, 210⟩ := by
  refine ⟨rfl, by norm_num, ?_⟩
  norm_num [crop_face_simple, pytrunc, min_def, max_def]

/-- C8 witness: the spec's concrete example, with the well-formedness
hypothesis discharged at `(100,100)-(200,200)`. -/
theorem claim_C8_witness :
    crop_face_simple ⟨1000, 1000⟩ ⟨some 100, some 100, some 200, some 200⟩ 0.1 =
      .ok ⟨90, 90, 210, 210⟩ :=
  (claim_C8 ⟨1000, 1000⟩ 100 100 200 200 0.1 ⟨by norm_num, by norm_num⟩).2.2

/-- C3: when every external step of the aligned cropper succeeds and the
transformed landmark rectangle is `(x, y, w, h)`, the padding relaxation
is `max(25, min(w*0.2, h*0.2))` (`25` for `w = h = 100`), the loose
rectangle's origin is `(max(0, x-relaxation), max(0, y-relaxation))` and
its extent is `min(w+2*relaxation, image_width - x)` by
`min(h+2*relaxation, image_height - y)` — the available space measured
from the UNCLAMPED tight origin `(x, y)`, not the clamped padded
origin. -/
theorem claim_C3 (o : AlignedOracles) (img : Image) (b : Box)
    (dets : List Box) (best : Box) (lms : Landmarks) (x y w h : ℤ)
    (hgray : o.grayConvert = .ok ())
    (hdet : o.detect = .ok dets)
    (hbest : find_best_matching_face b dets = .ok (some best))
    (hlms : o.predictLandmarks best = .ok lms)
    (hwarp : o.warpAffine = .ok ())
    (hrect : o.transformedRect = .ok (x, y, w, h)) :
    alignedRelaxation (w : ℚ) (h : ℚ) =
      max 25 (min ((w : ℚ) * 0.2) ((h : ℚ) * 0.2)) ∧
    alignedRelaxation 100 100 = 25 ∧
    crop_face_aligned o img b.raw =
      .ok (some ⟨⟨round (max 0 ((x : ℚ) - alignedRelaxation (w : ℚ) (h : ℚ))),
        round (max 0 ((y : ℚ) - alignedRelaxation (w : ℚ) (h : ℚ))),
        round (max 0 ((x : ℚ) - alignedRelaxation (w : ℚ) (h : ℚ))) +
          round (min ((w : ℚ) + 2 * alignedRelaxation (w : ℚ) (h : ℚ))
            ((img.width : ℚ) - (x : ℚ))),
        round (max 0 ((y : ℚ) - alignedRelaxation (w : ℚ) (h : ℚ))) +
          round (min ((h : ℚ) + 2 * alignedRelaxation (w : ℚ) (h : ℚ))
            ((img.height : ℚ) - (y : ℚ)))⟩,
        ⟨x, y, x + w, y + h⟩⟩) := by
  refine ⟨by rw [alignedRelaxation, MIN_PADDING],
    by norm_num [alignedRelaxation, MIN_PADDING], ?_⟩
  have hbody : alignedBody o img b.raw =
      .ok (some ⟨⟨round (max 0 ((x : ℚ) - alignedRelaxation (w : ℚ) (h : ℚ))),
        round (max 0 ((y : ℚ) - alignedRelaxation (w : ℚ) (h : ℚ))),
        round (max 0 ((x : ℚ) - alignedRelaxation (w : ℚ) (h : ℚ))) +
          round (min ((w : ℚ) + 2 * alignedRelaxation (w : ℚ) (h : ℚ))
            ((img.width : ℚ) - (x : ℚ))),
        round (max 0 ((y : ℚ) - alignedRelaxation (w : ℚ) (h : ℚ))) +
          round (min ((h : ℚ) + 2 * alignedRelaxation (w : ℚ) (h : ℚ))
            ((img.height : ℚ) - (y : ℚ)))⟩,
        ⟨x, y, x + w, y + h⟩⟩) := by
    simp only [alignedBody, rawToBox_raw, hdet, hbest, hlms, hwarp, hrect,
      alignedLooseRect]
  simp only [crop_face_aligned, hgray, hbody]

/-- C3 witness: oracle `oW` with tight rectangle `(2, 2, 4, 4)` on a
1000×1000 image: relaxation `25`, loose region `(0,0)-(54,54)`. -/
theorem claim_C3_witness :
    crop_face_aligned oW imgW boxW.raw = .ok (some cpW) := by
  have h := (claim_C3 oW imgW boxW [boxW] boxW Lflat 2 2 4 4 rfl rfl
    find_best_boxW rfl rfl rfl).2.2
  rw [h]
  norm_num [cpW, imgW, alignedRelaxation, MIN_PADDING, round_eq, min_def,
    max_def]

/-- C10: the grayscale conversion of `crop_face_aligned` runs outside the
exception-catching region, so its exception propagates to the caller;
every later step — detector pass, matching, landmark prediction, transform
application, transformed-rectangle computation — runs inside the catch,
and an exception there yields `None` instead. -/
theorem claim_C10 (o : AlignedOracles) (img : Image) (bbox : RawBox) :
    (∀ e, o.grayConvert = .error e →
      crop_face_aligned o img bbox = .error e) ∧
    (o.grayConvert = .ok () →
      ((o.detect = .error () → crop_face_aligned o img bbox = .ok none) ∧
       (∀ b dets, rawToBox bbox = .ok b → o.detect = .ok dets →
          find_best_matching_face b dets = .error () →
          crop_face_aligned o img bbox = .ok none) ∧
       (∀ b dets best, rawToBox bbox = .ok b → o.detect = .ok dets →
          find_best_matching_face b dets = .ok (some best) →
          o.predictLandmarks best = .error () →
          crop_face_aligned o img bbox = .ok none) ∧
       (∀ b dets best lms, rawToBox bbox = .ok b → o.detect = .ok dets →
          find_best_matching_face b dets = .ok (some best) →
          o.predictLandmarks best = .ok lms → o.warpAffine = .error () →
          crop_face_aligned o img bbox = .ok none) ∧
       (∀ b dets best lms, rawToBox bbox = .ok b → o.detect = .ok dets →
          find_best_matching_face b dets = .ok (some best) →
          o.predictLandmarks best = .ok lms → o.warpAffine = .ok () →
          o.transformedRect = .error () →
          crop_face_aligned o img bbox = .ok none))) := by
  refine ⟨fun e hgray => ?_, fun hgray => ⟨fun hdet => ?_,
    fun b dets hraw hdet hbest => ?_,
    fun b dets best hraw hdet hbest hlms => ?_,
    fun b dets best lms hraw hdet hbest hlms hwarp => ?_,
    fun b dets best lms hraw hdet hbest hlms hwarp hrect => ?_⟩⟩
  · simp only [crop_face_aligned, hgray]
  · cases hraw : rawToBox bbox with
    | error e => simp only [crop_face_aligned, hgray, alignedBody, hraw]
    | ok b => simp only [crop_face_aligned, hgray, alignedBody, hraw, hdet]
  · simp only [crop_face_aligned, hgray, alignedBody, hraw, hdet, hbest]
  · simp only [crop_face_aligned, hgray, alignedBody, hraw, hdet, hbest,
      hlms]
  · simp only [crop_face_aligned, hgray, alignedBody, hraw, hdet, hbest,
      hlms, hwarp]
  · simp only [crop_face_aligned, hgray, alignedBody, hraw, hdet, hbest,
      hlms, hwarp, hrect]

/-- C10 witness: a failing grayscale conversion propagates its exception,
while a failing detector pass is caught and becomes `None`. -/
theorem claim_C10_witness :
    crop_face_aligned oGrayFail imgW malBox = .error () ∧
    crop_face_aligned oDetectFail imgW malBox = .ok none := by
  constructor
  · exact (claim_C10 oGrayFail imgW malBox).1 () rfl
  · exact ((claim_C10 oDetectFail imgW malBox).2 rfl).1 rfl

/-- C4: `calc_normalized_matrix` computes
`angle = degrees(atan2(right_eye_mean.y - left_eye_mean.y,
right_eye_mean.x - left_eye_mean.x))`, pivot the equal-weighted average of
the left-eye, right-eye and nose means (mouth excluded), scale `1.0`; and
when the two eye means share their `y` (the right-eye mean strictly to the
right), the angle is `0` degrees. -/
theorem claim_C4 (L : Landmarks) :
    (calc_normalized_matrix L).angle =
      degrees (atan2 (((mean_right_eye L).2 : ℝ) - ((mean_left_eye L).2 : ℝ))
        (((mean_right_eye L).1 : ℝ) - ((mean_left_eye L).1 : ℝ))) ∧
    (calc_normalized_matrix L).center =
      (((mean_left_eye L).1 + (mean_right_eye L).1 + (mean_nose L).1) / 3,
       ((mean_left_eye L).2 + (mean_right_eye L).2 + (mean_nose L).2) / 3) ∧
    (calc_normalized_matrix L).scale = 1 ∧
    ((mean_right_eye L).2 = (mean_left_eye L).2 →
      (mean_left_eye L).1 < (mean_right_eye L).1 →
      (calc_normalized_matrix L).angle = 0) := by
  refine ⟨rfl, rfl, rfl, fun hy hx => ?_⟩
  show matrixAngle L = 0
  have hdx : (0 : ℝ) ≤
      ((mean_right_eye L).1 : ℝ) - ((mean_left_eye L).1 : ℝ) := by
    have hlt : ((mean_left_eye L).1 : ℝ) < ((mean_right_eye L).1 : ℝ) := by
      exact_mod_cast hx
    linarith
  simp only [matrixAngle, degrees, atan2, hy, sub_self]
  have hc : (⟨((mean_right_eye L).1 : ℝ) - ((mean_left_eye L).1 : ℝ), 0⟩ : ℂ) =
      ((((mean_right_eye L).1 : ℝ) - ((mean_left_eye L).1 : ℝ) : ℝ) : ℂ) := rfl
  rw [hc, Complex.arg_ofReal_of_nonneg hdx]
  simp

/-- C4 witness: on `Lflat` the eye means are at equal height with the
right-eye mean to the right, and the derived rotation angle is `0`. -/
theorem claim_C4_witness :
    (mean_right_eye Lflat).2 = (mean_left_eye Lflat).2 ∧
    (mean_left_eye Lflat).1 < (mean_right_eye Lflat).1 ∧
    (calc_normalized_matrix Lflat).angle = 0 := by
  have hy : (mean_right_eye Lflat).2 = (mean_left_eye Lflat).2 := by
    norm_num [mean_right_eye, mean_left_eye, meanRange, Lflat,
      Finset.sum_Ico_eq_sum_range, Finset.sum_range_succ]
  have hx : (mean_left_eye Lflat).1 < (mean_right_eye Lflat).1 := by
    norm_num [mean_right_eye, mean_left_eye, meanRange, Lflat,
      Finset.sum_Ico_eq_sum_range, Finset.sum_range_succ]
  exact ⟨hy, hx, (claim_C4 Lflat).2.2.2 hy hx⟩

/-- C5: `dlib_confidence_score` yields `None` when the detector raises
(never propagating the exception) and when it finds no detections;
with at least one detection it returns the FIRST detection's score with
its pose category looked up in the fixed 7-entry `DLIB_SUBD` table; and in
the orchestrator the corresponding `confidence` field of the emitted
`FaceAssessment` is absent, not an error, when the crop has no
detections. -/
theorem claim_C5 :
    (∀ e, dlib_confidence_score (.error e) = none) ∧
    dlib_confidence_score (.ok []) = none ∧
    (∀ (d : Detection) (tl : List Detection), d.idx < 7 →
      dlib_confidence_score (.ok (d :: tl)) =
        some ⟨d.score, DLIB_SUBD.getD d.idx "", d.idx⟩) ∧
    (∀ (α : Type) (o : AlignedOracles) (img : Image)
      (detectOnCrop : CropRegion → Except Unit (List Detection))
      (f : FaceRecord α) (bbox : RawBox) (cp : CropPair),
      f.box = some bbox →
      crop_face_aligned o img bbox = .ok (some cp) →
      detectOnCrop cp.loose = .ok [] →
      assess_quality o img detectOnCrop [f] =
        .ok [⟨bbox, none, (cp.loose.width, cp.loose.height),
          f.extra.filter (fun kv => !(RESERVED_KEYS.contains kv.1))⟩]) := by
  refine ⟨fun e => rfl, rfl, fun d tl h => ?_, ?_⟩
  · obtain ⟨s, i⟩ := d
    simp only at h
    interval_cases i <;> rfl
  · intro α o img detectOnCrop f bbox cp hbox hcfa hdet
    simp only [assess_quality, hbox, hcfa, hdet, dlib_confidence_score]

/-- C5 witness: a concrete first detection with pose index `0` scores as
`front`; a concrete orchestrator run with an empty detector pass on the
crop emits the record with an absent confidence. -/
theorem claim_C5_witness :
    dlib_confidence_score (.ok [⟨(3 : ℚ) / 2, 0⟩]) =
      some ⟨(3 : ℚ) / 2, "front", 0⟩ ∧
    assess_quality oW imgW detEmpty
        [(⟨some boxW.raw, []⟩ : FaceRecord Unit)] =
      .ok [⟨boxW.raw, none, (54, 54), []⟩] := by
  constructor
  · exact claim_C5.2.2.1 ⟨(3 : ℚ) / 2, 0⟩ [] (by norm_num)
  · have h := claim_C5.2.2.2 Unit oW imgW detEmpty ⟨some boxW.raw, []⟩
      boxW.raw cpW rfl crop_aligned_oW rfl
    rw [h]
    norm_num [cpW, CropRegion.width, CropRegion.height, max_def]

/-- Decomposition of one orchestrator step on a face with a present box:
on overall success the output starts with that face's record, built from
its box and filtered passthrough keys. -/
theorem assess_cons_some {α : Type} (o : AlignedOracles) (img : Image)
    (detectOnCrop : CropRegion → Except Unit (List Detection))
    (f : FaceRecord α) (rest : List (FaceRecord α))
    (out : List (FaceAssessment α)) (bbox : RawBox)
    (hbox : f.box = some bbox)
    (h : assess_quality o img detectOnCrop (f :: rest) = .ok out) :
    ∃ (conf : Option ConfidenceResult) (size : ℤ × ℤ)
      (out' : List (FaceAssessment α)),
      out = ⟨bbox, conf, size,
          f.extra.filter (fun kv => !(RESERVED_KEYS.contains kv.1))⟩ :: out' ∧
      assess_quality o img detectOnCrop rest = .ok out' := by
  simp only [assess_quality, hbox] at h
  cases hA : crop_face_aligned o img bbox with
  | error e =>
    rw [hA] at h
    simp at h
  | ok oc =>
    rw [hA] at h
    cases oc with
    | some cp =>
      cases hR : assess_quality o img detectOnCrop rest with
      | error e =>
        rw [hR] at h
        simp at h
      | ok out' =>
        rw [hR] at h
        simp only [Except.ok.injEq] at h
        exact ⟨_, _, out', h.symm, rfl⟩
    | none =>
      cases hS : crop_face_simple img bbox 0.1 with
      | error e =>
        rw [hS] at h
        simp at h
      | ok crop =>
        rw [hS] at h
        cases hR : assess_quality o img detectOnCrop rest with
        | error e =>
          rw [hR] at h
          simp at h
        | ok out' =>
          rw [hR] at h
          simp only [Except.ok.injEq] at h
          exact ⟨_, _, out', h.symm, rfl⟩

/-- C9: the orchestrator's output preserves the input order of the face
records; a record with a missing `box` is skipped before any processing;
and each emitted assessment carries its record's passthrough keys
unchanged except those colliding with the reserved keys `box`,
`confidence`, `cropped_size`, whose computed values are never
overwritten. -/
theorem claim_C9 (α : Type) (o : AlignedOracles) (img : Image)
    (detectOnCrop : CropRegion → Except Unit (List Detection)) :
    (∀ (f : FaceRecord α) (rest : List (FaceRecord α)), f.box = none →
      assess_quality o img detectOnCrop (f :: rest) =
        assess_quality o img detectOnCrop rest) ∧
    (∀ (faces : List (FaceRecord α)) (out : List (FaceAssessment α)),
      assess_quality o img detectOnCrop faces = .ok out →
      out.map (fun a => a.box) = faces.filterMap (fun f => f.box)) ∧
    (∀ (faces : List (FaceRecord α)) (out : List (FaceAssessment α)),
      assess_quality o img detectOnCrop faces = .ok out →
      ∀ a ∈ out, ∃ f ∈ faces, f.box = some a.box ∧
        a.extra = f.extra.filter (fun kv => !(RESERVED_KEYS.contains kv.1)) ∧
        ∀ kv ∈ a.extra, kv.1 ∉ RESERVED_KEYS) := by
  refine ⟨fun f rest hf => by simp only [assess_quality, hf], ?_, ?_⟩
  · intro faces
    induction faces with
    | nil =>
      intro out h
      simp only [assess_quality, Except.ok.injEq] at h
      subst h
      rfl
    | cons f rest ih =>
      intro out h
      cases hbox : f.box with
      | none =>
        simp only [assess_quality, hbox] at h
        simp only [List.filterMap_cons, hbox]
        exact ih out h
      | some bbox =>
        obtain ⟨conf, size, out', rfl, hrest⟩ :=
          assess_cons_some o img detectOnCrop f rest out bbox hbox h
        simp only [List.map_cons, List.filterMap_cons, hbox, ih out' hrest]
  · intro faces
    induction faces with
    | nil =>
      intro out h
      simp only [assess_quality, Except.ok.injEq] at h
      subst h
      intro a ha
      exact absurd ha (List.not_mem_nil a)
    | cons f rest ih =>
      intro out h
      cases hbox : f.box with
      | none =>
        simp only [assess_quality, hbox] at h
        intro a ha
        obtain ⟨g, hg, hprop⟩ := ih out h a ha
        exact ⟨g, List.mem_cons_of_mem f hg, hprop⟩
      | some bbox =>
        obtain ⟨conf, size, out', rfl, hrest⟩ :=
          assess_cons_some o img detectOnCrop f rest out bbox hbox h
        intro a ha
        rcases List.mem_cons.mp ha with rfl | ha'
        · refine ⟨f, List.mem_cons_self f rest, hbox, rfl, ?_⟩
          intro kv hkv hmem
          have hf := List.mem_filter.mp hkv
          have hc := hf.2
          simp only [Bool.not_eq_true'] at hc
          exact absurd hmem (by simpa using hc)
        · obtain ⟨g, hg, hprop⟩ := ih out' hrest a ha'
          exact ⟨g, List.mem_cons_of_mem f hg, hprop⟩

/-- C9 witness: a record with a missing box is skipped; a concrete
successful run maps output boxes onto the present input boxes in order. -/
theorem claim_C9_witness :
    assess_quality oW imgW detEmpty
        ((⟨none, [("a", (1 : ℕ))]⟩ : FaceRecord ℕ) :: []) =
      assess_quality oW imgW detEmpty ([] : List (FaceRecord ℕ)) ∧
    List.map (fun a => a.box)
        [(⟨boxW.raw, none, (54, 54), [("a", 1)]⟩ : FaceAssessment ℕ)] =
      List.filterMap (fun f => f.box)
        [(⟨some boxW.raw, [("a", (1 : ℕ)), ("box", 2)]⟩ : FaceRecord ℕ)] := by
  constructor
  · exact (claim_C9 ℕ oW imgW detEmpty).1 _ _ rfl
  · refine (claim_C9 ℕ oW imgW detEmpty).2.1 _ _ ?_
    have h1 : RESERVED_KEYS.contains "a" = false := rfl
    have h2 : RESERVED_KEYS.contains "box" = true := rfl
    simp only [assess_quality, crop_aligned_oW, detEmpty,
      dlib_confidence_score, List.filter, h1, h2, Bool.not_false,
      Bool.not_true, cond_true, cond_false]
    norm_num [cpW, CropRegion.width, CropRegion.height, max_def]

/-- C2: the failing input evaluated on the embedding.  A batch holding a
malformed box (missing `y_max`) followed by a well-formed face makes the
whole call raise (the `KeyError` escapes `crop_face_simple`, which is not
inside any local `try`), aborting the batch; the same well-formed face
alone is processed fine.  The claim — and the code's own `Optional`
annotation on `crop_face_simple` together with its caller's dead
`None`-skip check — require only the malformed face to be dropped. -/
theorem claim_C2_failing :
    assess_quality oC2 imgW detEmpty
        [(⟨some malBox, []⟩ : FaceRecord Unit), ⟨some goodBox, []⟩] =
      .error () ∧
    assess_quality oC2 imgW detEmpty
        [(⟨some goodBox, []⟩ : FaceRecord Unit)] =
      .ok [⟨goodBox, none, (120, 120), []⟩] := by
  have hal_mal : crop_face_aligned oC2 imgW malBox = .ok none := by
    simp only [crop_face_aligned, oC2, alignedBody, malBox, rawToBox]
  have hfb : find_best_matching_face (Box.mk 100 100 200 200) [] =
      .ok none := rfl
  have hal_good : crop_face_aligned oC2 imgW goodBox = .ok none := by
    simp only [crop_face_aligned, oC2, alignedBody, goodBox, rawToBox_raw,
      hfb]
  have hsimple_mal : crop_face_simple imgW malBox 0.1 = .error () := rfl
  have hsimple_good : crop_face_simple imgW goodBox 0.1 =
      .ok ⟨90, 90, 210, 210⟩ := by
    norm_num [crop_face_simple, goodBox, Box.raw, imgW, pytrunc, min_def,
      max_def]
  constructor
  · simp only [assess_quality, hal_mal, hsimple_mal]
  · simp only [assess_quality, hal_good, hsimple_good, detEmpty,
      dlib_confidence_score]
    norm_num [CropRegion.width, CropRegion.height, max_def]

end FaceQuality
